import Mathlib

/-!
Verification development for the album-metadata reconciliation script
(`src/main.py`).  The Python source is shallowly embedded: Python strings
are Lean `String`s viewed as lists of code points, Python dicts keyed by
strings are insertion-ordered association lists, interactive `input()`
calls consume a script of operator replies (an exhausted script is
modelled as empty replies), and the remote MusicBrainz service is an
oracle record of pure functions.  File mutation (`audio.save`,
`os.rename`) is modelled as an emitted event trace.  An uncaught Python
exception is modelled as a `crashed` flag (for the run loop) or a `none`
result (for `update_metadata`'s `ValueError`).
All helpers model CPython semantics on ASCII data; Unicode-only
behaviours (e.g. `str.lower` beyond ASCII, non-ASCII digits) are out of
scope of every claim considered here.
-/

/-! Python string primitives used by the source. -/

/-- The characters stripped by Python `str.strip()` and matched by the
regex class `\s` (ASCII range). -/
def isPySpace (c : Char) : Bool :=
  c = ' ' ∨ c = '\t' ∨ c = '\n' ∨ c = '\r' ∨ c = '\x0b' ∨ c = '\x0c'

/-- Python `str.strip()`: drop leading and trailing whitespace. -/
def pyStrip (s : String) : String :=
  String.mk (((s.data.dropWhile isPySpace).reverse.dropWhile isPySpace).reverse)

/-- Python `str.lower()` (ASCII model). -/
def pyLower (s : String) : String :=
  String.mk (s.data.map Char.toLower)

/-- Python `str.endswith(suffix)`. -/
def pyEndsWith (suf s : String) : Bool :=
  List.isSuffixOf suf.data s.data

/-- Worker for `pySplit`. -/
def splitGo (sep : Char) : List Char → List Char → List String
  | [], acc => [String.mk acc.reverse]
  | c :: cs, acc =>
    if c = sep then String.mk acc.reverse :: splitGo sep cs []
    else splitGo sep cs (c :: acc)

/-- Python `str.split(sep)` for a one-character separator:
`"".split('.') = [""]`, `"a..b".split('.') = ["a", "", "b"]`. -/
def pySplit (sep : Char) (s : String) : List String :=
  splitGo sep s.data []

/-- Python `str.isdigit()` (ASCII model): nonempty and all digits. -/
def pyIsDigit (s : String) : Bool :=
  (!s.data.isEmpty) && s.data.all Char.isDigit

/-- Python `str.zfill(2)` on digit strings: left-pad with zeros to width 2. -/
def zfill2 (s : String) : String :=
  if s.length ≥ 2 then s else if s.length = 1 then "0" ++ s else "00"

/-- Digit-run parser for `pyInt`, allowing single underscores between
digits (PEP 515), accumulating the value. -/
def pdGo (acc : Nat) : List Char → Option Nat
  | [] => some acc
  | '_' :: c :: cs =>
    if c.isDigit then pdGo (acc * 10 + (c.toNat - 48)) cs else none
  | '_' :: [] => none
  | c :: cs =>
    if c.isDigit then pdGo (acc * 10 + (c.toNat - 48)) cs else none

/-- Parse a nonempty digit run (with PEP 515 underscores). -/
def parseDigitsU : List Char → Option Nat
  | [] => none
  | c :: cs => if c.isDigit then pdGo (c.toNat - 48) cs else none

/-- Python `int(s)` on strings (ASCII model): surrounding whitespace,
optional sign, digits.  `none` models the raised `ValueError`. -/
def pyInt (s : String) : Option Int :=
  match (pyStrip s).data with
  | '+' :: rest => (parseDigitsU rest).map Int.ofNat
  | '-' :: rest => (parseDigitsU rest).map (fun n => -(n : Int))
  | rest => (parseDigitsU rest).map Int.ofNat

/-- `os.path.dirname` (posix): the part before the last `/`, with
trailing slashes stripped unless the head is all slashes. -/
def pyDirname (p : String) : String :=
  let l := p.data
  match ((List.range l.length).filter (fun i => l.getD i ' ' = '/')).getLast? with
  | none => ""
  | some i =>
    let head := l.take (i + 1)
    if head.all (fun c => c = '/') then String.mk head
    else String.mk ((head.reverse.dropWhile (fun c => c = '/')).reverse)

/-- `os.path.join(d, f)` for a non-absolute second component. -/
def pyJoin (d f : String) : String :=
  if d = "" then f else if pyEndsWith "/" d then d ++ f else d ++ "/" ++ f

/-! `clean_file_name` (src/main.py lines 17-37): `re.sub` over the class
`[<>:"/\|?*]` with a replacement table defaulting to `"_"`, then
`str.strip()`. -/

/-- The regex character class `[<>:"/\|?*]` of `clean_file_name`.
`Char.ofNat 34` is the double quote. -/
def unsafeChars : List Char :=
  ['<', '>', ':', Char.ofNat 34, '/', '\\', '|', '?', '*']

/-- The `replacements` dictionary of `clean_file_name`.
`Char.ofNat 39` is the single quote. -/
def replacementFor (c : Char) : Option String :=
  if c = '<' then some "("
  else if c = '>' then some ")"
  else if c = ':' then some "-"
  else if c = Char.ofNat 34 then some (String.singleton (Char.ofNat 39))
  else if c = '/' then some "-"
  else if c = '\\' then some "-"
  else if c = '|' then some "-"
  else if c = '?' then some ""
  else if c = '*' then some ""
  else none

/-- The `re.sub` step of `clean_file_name`: each character in the unsafe
class is replaced via the table (default `"_"`, which is unreachable
since the table covers the class); other characters pass through. -/
def cleanSub (s : String) : String :=
  String.join (s.data.map (fun c =>
    if c ∈ unsafeChars then (replacementFor c).getD "_" else String.singleton c))

/-- `clean_file_name`: table substitution followed by `str.strip()`. -/
def clean_file_name (s : String) : String :=
  pyStrip (cleanSub s)

/-! `is_valid_release_id` (lines 12-15): anchored match of
8-4-4-4-12 lowercase-hex groups against the stripped input. -/

/-- A lowercase hexadecimal character, per the class `[a-f0-9]`. -/
def isHexLower (c : Char) : Bool :=
  c.isDigit || ('a' ≤ c && c ≤ 'f')

/-- `is_valid_release_id`: the stripped input, split on `-`, must be five
all-hex groups of lengths 8, 4, 4, 4, 12 (equivalent to the source's
anchored UUID regex). -/
def isValidReleaseId (s : String) : Bool :=
  let parts := pySplit '-' (pyStrip s)
  (parts.map String.length = [8, 4, 4, 4, 12] : Bool)
    && parts.all (fun p => p.data.all isHexLower)


/-! `is_close_match` (lines 112-114): `difflib.SequenceMatcher` ratio of
the lowercased names against threshold `0.8`.  The matcher is embedded
following CPython's `difflib` with `isjunk = None`: `b2j` indexing with
autojunk popularity pruning (only active for `len(b) >= 200`), the
`find_longest_match` dynamic program, and the recursive region split of
`get_matching_blocks` (junk-extension loops are no-ops with an empty junk
set and are omitted).  The float comparison `ratio() >= 0.8` equals the
rational comparison `2*M/T >= 4/5` for every string whose length is far
below `2^53`, which is how it is stated here. -/

/-- Indices of `c` in `b` (the `b2j` table), with the autojunk rule:
for `len(b) >= 200`, elements occurring more than `len(b)/100 + 1`
times are dropped. -/
def b2jIndices (b : List Char) (c : Char) : List Nat :=
  let idxs := (List.range b.length).filter (fun j => b.getD j ' ' = c)
  if b.length ≥ 200 ∧ idxs.length > b.length / 100 + 1 then [] else idxs

/-- Inner loop of `find_longest_match` for one row `i`: fold over the
`b2j` indices of `a[i]`, building the new run-length table and updating
the best block. -/
def flmInner (j2len : Nat → Nat) (i : Nat) :
    List Nat → (Nat → Nat) → Nat × Nat × Nat → (Nat → Nat) × (Nat × Nat × Nat)
  | [], newTab, best => (newTab, best)
  | j :: js, newTab, best =>
    let k := (if j = 0 then 0 else j2len (j - 1)) + 1
    let newTab' := fun j' => if j' = j then k else newTab j'
    let best' := if k > best.2.2 then (i + 1 - k, j + 1 - k, k) else best
    flmInner j2len i js newTab' best'

/-- Outer loop of `find_longest_match` over the rows `alo..ahi-1`. -/
def flmOuter (a b : List Char) (blo bhi : Nat) :
    List Nat → (Nat → Nat) → Nat × Nat × Nat → Nat × Nat × Nat
  | [], _, best => best
  | i :: is, j2len, best =>
    let js := (b2jIndices b (a.getD i ' ')).filter (fun j => blo ≤ j ∧ j < bhi)
    let (newTab, best') := flmInner j2len i js (fun _ => 0) best
    flmOuter a b blo bhi is newTab best'

/-- Left-extension loop of `find_longest_match` (non-junk variant; the
junk set is empty).  `fuel` bounds the loop; each step decrements `bi`,
so starting fuel `bi` is never exhausted. -/
def extendLeftF (a b : List Char) (alo blo : Nat) :
    Nat → Nat → Nat → Nat → Nat × Nat × Nat
  | 0, bi, bj, bs => (bi, bj, bs)
  | fuel + 1, bi, bj, bs =>
    if alo < bi ∧ blo < bj ∧ a.getD (bi - 1) ' ' = b.getD (bj - 1) ' ' then
      extendLeftF a b alo blo fuel (bi - 1) (bj - 1) (bs + 1)
    else (bi, bj, bs)

/-- Right-extension loop of `find_longest_match`.  `fuel` bounds the
loop; each step increments `bi + bs` toward `ahi`, so starting fuel
`ahi` is never exhausted. -/
def extendRightF (a b : List Char) (ahi bhi : Nat) :
    Nat → Nat → Nat → Nat → Nat
  | 0, _, _, bs => bs
  | fuel + 1, bi, bj, bs =>
    if bi + bs < ahi ∧ bj + bs < bhi ∧ a.getD (bi + bs) ' ' = b.getD (bj + bs) ' ' then
      extendRightF a b ahi bhi fuel bi bj (bs + 1)
    else bs

/-- `SequenceMatcher.find_longest_match` on the region
`a[alo:ahi]`, `b[blo:bhi]`. -/
def flm (a b : List Char) (alo ahi blo bhi : Nat) : Nat × Nat × Nat :=
  let best := flmOuter a b blo bhi (List.range' alo (ahi - alo)) (fun _ => 0) (alo, blo, 0)
  let ext := extendLeftF a b alo blo best.1 best.1 best.2.1 best.2.2
  (ext.1, ext.2.1, extendRightF a b ahi bhi ahi ext.1 ext.2.1 ext.2.2)

/-- Total matched size over `get_matching_blocks`' recursive region
split.  `fuel` bounds the recursion depth; each level of real recursion
removes at least one `a`-position, so the top-level fuel
`a.length + b.length + 1` is never exhausted. -/
def matchTotal (a b : List Char) : Nat → Nat → Nat → Nat → Nat → Nat
  | 0, _, _, _, _ => 0
  | fuel + 1, alo, ahi, blo, bhi =>
    let r := flm a b alo ahi blo bhi
    let i := r.1
    let j := r.2.1
    let k := r.2.2
    if k = 0 then 0
    else
      k + (if alo < i ∧ blo < j then matchTotal a b fuel alo i blo j else 0)
        + (if i + k < ahi ∧ j + k < bhi then matchTotal a b fuel (i + k) ahi (j + k) bhi else 0)

/-- Sum of matching-block sizes of `SequenceMatcher(None, a, b)`. -/
def smMatches (a b : List Char) : Nat :=
  matchTotal a b (a.length + b.length + 1) 0 a.length 0 b.length

/-- `is_close_match(name1, name2)`: `ratio() >= 0.8` on the lowercased
strings, stated as the exact rational comparison `5*M ≥ 2*T` (with the
Python convention `ratio = 1.0` when both strings are empty). -/
def isCloseMatch (name1 name2 : String) : Bool :=
  let a := (pyLower name1).data
  let b := (pyLower name2).data
  let m := smMatches a b
  let t := a.length + b.length
  if t = 0 then true else (5 * m ≥ 2 * t : Bool)


/-! Disc-marker scanners of `group_tracks_by_album` (lines 48-92).
Two regexes are involved: the path regex `(Disc|CD)\s*(\d+)`
(`re.search` with IGNORECASE, line 56) and the album-tag pattern
`(\s*(\(|\[)?Disc (\d+)(\)|\])?)`, used twice with different flags: the
`re.search` on line 77 passes IGNORECASE, while the `re.sub` on line 80
passes no flags and therefore removes only case-exact `Disc` matches.
All are embedded as deterministic leftmost scanners, which agree with
the backtracking engine on these patterns (the alternatives start with
distinct letters and `\s*`/`\d+` are followed by disjoint character
classes). -/

/-- Case-insensitive literal match: consume `pat` from the front of `l`. -/
def matchCI (pat : String) (l : List Char) : Option (List Char) :=
  matchCIGo pat.data l
where
  matchCIGo : List Char → List Char → Option (List Char)
    | [], l => some l
    | _ :: _, [] => none
    | p :: ps, c :: cs => if c.toLower = p.toLower then matchCIGo ps cs else none

/-- Case-sensitive literal match: consume `pat` from the front of `l`. -/
def matchLit (pat : String) (l : List Char) : Option (List Char) :=
  if pat.data.isPrefixOf l then some (l.drop pat.data.length) else none

/-- One attempt of the path regex `(Disc|CD)\s*(\d+)` at a fixed start
position; returns the digit group. -/
def tryPathAt (l : List Char) : Option String :=
  let afterKw : List Char → Option String := fun l2 =>
    let l3 := l2.dropWhile isPySpace
    let ds := l3.takeWhile Char.isDigit
    if ds.isEmpty then none else some (String.mk ds)
  match matchCI "Disc" l with
  | some l2 => afterKw l2
  | none =>
    match matchCI "CD" l with
    | some l2 => afterKw l2
    | none => none

/-- `re.search` of the path regex: leftmost successful attempt. -/
def pathSearchGo : List Char → Option String
  | [] => none
  | c :: cs =>
    match tryPathAt (c :: cs) with
    | some d => some d
    | none => pathSearchGo cs

/-- Disc number found anywhere in a file path (`disc_regex.search`),
group 2 of the first match. -/
def pathDiscSearch (s : String) : Option String :=
  pathSearchGo s.data

/-- One attempt of the album-tag pattern
`(\s*(\(|\[)?Disc (\d+)(\)|\])?)` at a fixed start position, with the
`Disc` keyword matched by `kwMatch` (the flags are the only difference
between the two uses of the pattern); returns the digit group and the
remainder after the whole match. -/
def tryAlbumWith (kwMatch : List Char → Option (List Char)) (l : List Char) :
    Option (String × List Char) :=
  let core : List Char → Option (String × List Char) := fun l2 =>
    match kwMatch l2 with
    | none => none
    | some l3 =>
      match l3 with
      | ' ' :: l4 =>
        let ds := l4.takeWhile Char.isDigit
        if ds.isEmpty then none
        else
          let l5 := l4.drop ds.length
          let l6 := match l5 with
            | ')' :: r => r
            | ']' :: r => r
            | _ => l5
          some (String.mk ds, l6)
      | _ => none
  let l1 := l.dropWhile isPySpace
  match l1 with
  | '(' :: l2 => core l2
  | '[' :: l2 => core l2
  | _ => core l1

/-- The album-tag attempt under the `re.search` of line 77
(IGNORECASE). -/
def tryAlbumAt (l : List Char) : Option (String × List Char) :=
  tryAlbumWith (matchCI "Disc") l

/-- The album-tag attempt under the `re.sub` of line 80 (no flags:
only a case-exact `Disc` matches). -/
def tryAlbumStripAt (l : List Char) : Option (String × List Char) :=
  tryAlbumWith (matchLit "Disc") l

/-- `re.search` of the album-tag pattern: digit group of the first
match. -/
def albumSearchGo : List Char → Option String
  | [] => none
  | c :: cs =>
    match tryAlbumAt (c :: cs) with
    | some r => some r.1
    | none => albumSearchGo cs

/-- Disc number embedded in the album tag (group 3 of the first match of
the album-tag pattern). -/
def albumFirstDisc (s : String) : Option String :=
  albumSearchGo s.data

/-- `re.sub` of the album-tag pattern with `""` (line 80, no flags, so
case-sensitive): remove every non-overlapping case-exact match,
scanning left to right.  `fuel` bounds the loop; each iteration removes
at least one character, so `l.length` suffices. -/
def albumStripAllF : Nat → List Char → List Char
  | 0, l => l
  | _ + 1, [] => []
  | fuel + 1, c :: cs =>
    match tryAlbumStripAt (c :: cs) with
    | some r => albumStripAllF fuel r.2
    | none => c :: albumStripAllF fuel cs

/-- The album tag with every disc-suffix match removed (before the final
`strip`). -/
def albumStripAll (s : String) : String :=
  String.mk (albumStripAllF s.data.length s.data)


/-! Data model.  Optional fields mirror the source's `.get(key, default)`
accesses on tag data and MusicBrainz response dictionaries. -/

/-- Tag snapshot of one local audio file, as read by `EasyID3`/`FLAC`.
The whole read is `Option`al at the environment level: `none` models a
raised exception during the read. -/
structure TagData where
  album : Option String
  artist : Option String
deriving DecidableEq

/-- The tag-reading environment: per file path, either a successful read
(`some`) or a read failure / exception (`none`). -/
abbrev TagEnv := String → Option TagData

/-- One search result (`release-list` entry): `id`, `title`, and the
nested `artist-credit[0].artist.name` when present. -/
structure Candidate where
  id : String
  title : String
  artistCredit : Option String
deriving DecidableEq

/-- The artist string the source extracts from a candidate:
`match.get("artist-credit", [{}])[0].get("artist", {}).get("name", "Unknown")`. -/
def relArtist (c : Candidate) : String :=
  c.artistCredit.getD "Unknown"

/-- One track of a medium in a fetched release (`track-list` entry):
`recording.title`, `recording.artist-credit[0].artist.name`, and the
track `position`, each defaulted by the source when missing. -/
structure MBTrack where
  recTitle : Option String
  recArtist : Option String
  position : Option String
deriving DecidableEq

/-- One `medium-list` entry: its `position` (source default `"1"`) and
its `track-list`. -/
structure Medium where
  position : Option String
  trackList : List MBTrack
deriving DecidableEq

/-- A fetched release (the `"release"` payload of
`get_release_by_id`): `release-group.title`, `date`, `medium-list`. -/
structure Release where
  releaseGroupTitle : Option String
  date : Option String
  mediumList : List Medium
deriving DecidableEq

/-- The per-track metadata dictionary built in `main` (lines 312-318)
and consumed by `update_metadata`. -/
structure TrackMeta where
  title : String
  artist : String
  album : String
  date : String
  tracknumber : String
deriving DecidableEq

/-- Observable actions of one run: operator prompts (with the operator's
processed reply) and file mutations.  `tagWrite` records the fields
written by `update_metadata` (`album`/`date` are `none` when the source
skips them); `warnInvalidTrack` records the logged warning for an
invalid track number. -/
inductive Event where
  | promptClose (reply : String)
  | promptManual (reply : String)
  | promptRetry (reply : String)
  | tagWrite (file : String) (title : String) (artist : String)
      (album : Option String) (tracknumber : String) (date : Option String)
  | rename (src : String) (dst : String)
  | warnInvalidTrack (tn : String)
deriving DecidableEq

/-- File mutations (tag writes and renames). -/
def isFileAction : Event → Bool
  | .tagWrite _ _ _ _ _ _ => true
  | .rename _ _ => true
  | _ => false

/-- No tag write and no rename occurs in the trace. -/
def noFileAction (evs : List Event) : Bool :=
  evs.all (fun e => !isFileAction e)

/-- Operator prompts of any kind. -/
def isPromptEvent : Event → Bool
  | .promptClose _ => true
  | .promptManual _ => true
  | .promptRetry _ => true
  | _ => false

/-- Some operator prompt occurs in the trace. -/
def containsPrompt (evs : List Event) : Bool :=
  evs.any isPromptEvent

/-- An empty operator reply at a Manual-Resolution prompt (the free-text
prompt or the retry prompt of `manual_input`). -/
def isEmptyResolutionReply : Event → Bool
  | .promptManual s => s = ""
  | .promptRetry s => s = ""
  | _ => false

/-! `gather_all_files` (lines 39-46): the filesystem walk is external;
its extension filter is embedded. -/

/-- The extension filter of `gather_all_files`:
`file.endswith(('.mp3', '.flac', '.wav'))`. -/
def audioExtFilter (f : String) : Bool :=
  pyEndsWith ".mp3" f || pyEndsWith ".flac" f || pyEndsWith ".wav" f

/-! `group_tracks_by_album` (lines 48-92). -/

/-- Album buckets: insertion-ordered map

album name → (insertion-ordered map disc number → file paths). -/
abbrev Albums := List (String × List (String × List String))

/-- Append `f` to disc `disc`'s list (creating the disc bucket at the
end if absent), mirroring Python dict insertion order. -/
def appendDisc (dl : List (String × List String)) (disc f : String) :
    List (String × List String) :=
  match dl with
  | [] => [(disc, [f])]
  | (d, fs) :: rest =>
    if d = disc then (d, fs ++ [f]) :: rest
    else (d, fs) :: appendDisc rest disc f

/-- Append `f` to bucket `(album, disc)` (creating buckets at the end if
absent), mirroring Python dict insertion order. -/
def appendFile (albums : Albums) (album disc f : String) : Albums :=
  match albums with
  | [] => [(album, [(disc, [f])])]
  | (a, dl) :: rest =>
    if a = album then (a, appendDisc dl disc f) :: rest
    else (a, dl) :: appendFile rest album disc f

/-- Disc-number and album-key resolution for one file (lines 70-80), in
source order: default `"1"`, overridden by a path marker, overridden by
an album-tag marker found case-insensitively (line 77), in which case
the case-exact matches of the suffix pattern are stripped from the
album key (line 80). -/
def resolveDisc (filePath albumTag : String) : String × String :=
  let disc₁ := "1"
  let disc₂ := match pathDiscSearch filePath with
    | some d => d
    | none => disc₁
  match albumFirstDisc albumTag with
  | some d => (pyStrip (albumStripAll albumTag), d)
  | none => (albumTag, disc₂)

/-- One iteration of the grouping loop (lines 58-91): unsupported
extensions and failed tag reads are skipped (logged), otherwise the file
is appended to its `(album, disc)` bucket. -/
def groupStep (env : TagEnv) (albums : Albums) (f : String) : Albums :=
  if pyEndsWith ".mp3" f || pyEndsWith ".flac" f then
    match env f with
    | none => albums
    | some tag =>
      let album₀ := tag.album.getD "Unknown Album"
      let r := resolveDisc f album₀
      appendFile albums r.1 r.2 f
  else albums

/-- `group_tracks_by_album` over a discovered file list. -/
def group_tracks_by_album (env : TagEnv) (files : List String) : Albums :=
  files.foldl (groupStep env) []

/-- Occurrences of file `f` in one album's disc buckets. -/
def discCount (dl : List (String × List String)) (f : String) : Nat :=
  (dl.map (fun p => p.2.count f)).sum

/-- Occurrences of file `f` across all buckets of the grouping. -/
def countFile (albums : Albums) (f : String) : Nat :=
  (albums.map (fun p => discCount p.2 f)).sum

/-- A file the grouping loop actually buckets: supported extension and
successful tag read. -/
def processedFile (env : TagEnv) (f : String) : Bool :=
  (pyEndsWith ".mp3" f || pyEndsWith ".flac" f) && (env f).isSome

/-! `update_metadata` (lines 116-190). -/

/-- The sort key of line 121:
`int(metadata.get("tracknumber", "0").split("/")[0])`.  `none` models
the `ValueError` raised inside `sorted`, which is not caught by the
per-file handler and aborts the whole call. -/
def sortKey (m : TrackMeta) : Option Int :=
  pyInt ((pySplit '/' m.tracknumber).headD "")

/-- Stable insertion for `sorted(..., key=...)`: a new element goes
after existing elements with a key less than or equal to its own. -/
def insertByKey (x : String × TrackMeta) :
    List (String × TrackMeta) → List (String × TrackMeta)
  | [] => [x]
  | y :: ys =>
    if (sortKey y.2).getD 0 ≤ (sortKey x.2).getD 0 then y :: insertByKey x ys
    else x :: y :: ys

/-- Python `sorted` by track-number key (stable).  Only evaluated when
every key parses, so the `getD 0` defaults are never exercised. -/
def sortPairs (l : List (String × TrackMeta)) : List (String × TrackMeta) :=
  l.foldl (fun acc x => insertByKey x acc) []

/-- Events produced for one (file, metadata) pair inside the per-file
`try` block (lines 124-190): the tag write (album only when it is not
the sentinel, date only when nonempty), the invalid-track-number warning
when `isdigit` fails, and the conditional rename.  Unsupported
extensions are skipped with a logged warning. -/
def fileEvents (p : String × TrackMeta) : List Event :=
  let file := p.1
  let m := p.2
  if pyEndsWith ".mp3" file || pyEndsWith ".flac" file then
    let albumW := if m.album ≠ "Unknown Album" then some m.album else none
    let dateW := if m.date ≠ "" then some m.date else none
    let tn := (pySplit '/' m.tracknumber).headD ""
    let tr := if pyIsDigit tn then (zfill2 tn, ([] : List Event))
              else ("00", [Event.warnInvalidTrack m.tracknumber])
    let base := clean_file_name (tr.1 ++ " - " ++ m.title)
    let ext := (pySplit '.' file).getLastD ""
    let newPath := pyJoin (pyDirname file) (base ++ "." ++ ext)
    [Event.tagWrite file m.title m.artist albumW m.tracknumber dateW]
      ++ tr.2
      ++ (if file ≠ newPath then [Event.rename file newPath] else [])
  else []

/-- `update_metadata`: zip files with their metadata, sort by the
numeric track-number prefix, then process each pair.  `none` models the
uncaught `ValueError` from the sort key when some track-number prefix
does not parse as an integer: no file of the disc is processed. -/
def update_metadata (files : List String) (metas : List TrackMeta) :
    Option (List Event) :=
  let pairs := files.zip metas
  if pairs.all (fun p => (sortKey p.2).isSome) then
    some ((sortPairs pairs).foldl (fun evs p => evs ++ fileEvents p) [])
  else none

/-! The MusicBrainz service boundary.  `search` models
`find_album_on_musicbrainz` after its own exception handling (a service
failure is already an empty list there, lines 94-101).  `getById` models
`musicbrainzngs.get_release_by_id`; `Except.error ()` is a raised
service error (`ResponseError`).  `fetch_full_release_details`
(lines 104-110) catches that error and degrades to `none`.  The
`"release"` dict wrapper of the response is elided: `Release` is its
payload. -/

structure Catalog where
  search : String → Option String → List Candidate
  getById : String → Except Unit Release

/-- `fetch_full_release_details`: the fetch with its error swallowed. -/
def fetch_full_release_details (cat : Catalog) (releaseId : String) :
    Option Release :=
  (cat.getById releaseId).toOption

/-! `manual_input` (lines 192-226). -/

/-- Result of one `manual_input` call: the produced release (if any),
the prompt events, and the remaining operator script. -/
structure MOut where
  rel : Option Release
  evs : List Event
  rest : List String
deriving DecidableEq

/-- `manual_input`: empty (stripped) input abandons; a valid release id
is fetched directly, a raised service error offers one retry prompt and
returns no release whatever the reply (on `y` the source falls through
to the implicit `return None`); any other text re-runs the search and
fetches the top result through `fetch_full_release_details`, whose
swallowed error yields `none` with no retry prompt.  An exhausted
operator script is modelled as an empty reply. -/
def manual_input (cat : Catalog) : List String → MOut
  | [] => ⟨none, [.promptManual ""], []⟩
  | raw :: rest =>
    let s := pyStrip raw
    if s = "" then ⟨none, [.promptManual s], rest⟩
    else if isValidReleaseId s then
      match cat.getById s with
      | .ok r => ⟨some r, [.promptManual s], rest⟩
      | .error _ =>
        match rest with
        | [] => ⟨none, [.promptManual s, .promptRetry ""], []⟩
        | r0 :: rest' => ⟨none, [.promptManual s, .promptRetry (pyLower (pyStrip r0))], rest'⟩
    else
      match cat.search s none with
      | [] => ⟨none, [.promptManual s], rest⟩
      | c :: _ => ⟨fetch_full_release_details cat c.id, [.promptManual s], rest⟩

/-! The Structural Validator: the `while full_details` loop's
medium-by-medium check (lines 300-336). -/

/-- Build one track's metadata dictionary (lines 312-318). -/
def mkTrackMeta (albumT dateT : String) (t : MBTrack) : TrackMeta :=
  ⟨t.recTitle.getD "Unknown", t.recArtist.getD "Unknown", albumT, dateT,
    t.position.getD "0"⟩

/-- `media.setdefault(pos, []).extend(ts)`: extend the bucket of `pos`,
creating it at the end if absent. -/
def mediaAppend (media : List (String × List TrackMeta)) (pos : String)
    (ts : List TrackMeta) : List (String × List TrackMeta) :=
  match media with
  | [] => [(pos, ts)]
  | (p, l) :: rest =>
    if p = pos then (p, l ++ ts) :: rest
    else (p, l) :: mediaAppend rest pos ts

/-- Outcome of one pass of the validation loop body over the release's
media: acceptance with the built `media` map, one of the two rejection
warnings (which re-enter Manual Resolution), or the uncaught `KeyError`
from `discs[medium_number]` when a medium position has no local disc. -/
inductive VRes where
  | accepted (media : List (String × List TrackMeta))
  | rejectedDisc
  | rejectedTrack (pos : String)
  | keyError (pos : String)
deriving DecidableEq

/-- The `for medium in release.get("medium-list", [])` loop: accumulate
tracks per medium position, then check disc-count excess
(`len(media) > len(discs)`), then the per-disc track count, whose local
lookup `discs[medium_number]` raises `KeyError` when absent. -/
def vGo (discs : List (String × List String)) (albumT dateT : String) :
    List Medium → List (String × List TrackMeta) → VRes
  | [], media => .accepted media
  | m :: ms, media =>
    let pos := m.position.getD "1"
    let media' := mediaAppend media pos (m.trackList.map (mkTrackMeta albumT dateT))
    if media'.length > discs.length then .rejectedDisc
    else
      match List.lookup pos discs with
      | none => .keyError pos
      | some files =>
        if ((List.lookup pos media').getD []).length ≠ files.length then
          .rejectedTrack pos
        else vGo discs albumT dateT ms media'

/-- Validate one candidate release against the local disc map
(lines 301-330), resolving the album title and date the way the loop
body does (lines 303-304, 316). -/
def validateRelease (discs : List (String × List String)) (rel : Release) : VRes :=
  vGo discs (rel.releaseGroupTitle.getD "Unknown Album") (rel.date.getD "")
    rel.mediumList []

/-- Insert a position into the running list of distinct positions
(insertion order, no duplicates), exactly how `media` acquires keys. -/
def addDistinct (acc : List String) (p : String) : List String :=
  if p ∈ acc then acc else acc ++ [p]

/-- The number of distinct medium positions of a release (with the
source's `"1"` default for a missing position). -/
def distinctPositions (rel : Release) : Nat :=
  ((rel.mediumList.map (fun m => m.position.getD "1")).foldl addDistinct []).length

/-! The per-album control flow of `main` (lines 246-341). -/

/-- Outcome of the `while full_details` validation loop: `proceed` is
the in-loop `break` on a clean pass (application follows), `skipped` is
the `while`-`else` `break` when `full_details` became falsy (the album
is abandoned), `crashed` is the uncaught `KeyError`. -/
inductive ValOut where
  | proceed (media : List (String × List TrackMeta)) (evs : List Event) (rest : List String)
  | skipped (evs : List Event) (rest : List String)
  | crashed (evs : List Event) (rest : List String)
deriving DecidableEq

/-- Prefix events onto a loop outcome. -/
def prependEvs (pre : List Event) : ValOut → ValOut
  | .proceed m e r => .proceed m (pre ++ e) r
  | .skipped e r => .skipped (pre ++ e) r
  | .crashed e r => .crashed (pre ++ e) r

/-- The `while full_details` loop (lines 300-336), fuelled: on a
rejection the loop re-prompts through `manual_input` and retries with
its result.  Each real iteration consumes at least one operator reply,
so the wrapper's fuel `inputs.length + 2` is never exhausted. -/
def valLoopF (cat : Catalog) (discs : List (String × List String)) :
    Nat → Option Release → List String → ValOut
  | 0, _, inputs => .skipped [] inputs
  | _ + 1, none, inputs => .skipped [] inputs
  | fuel + 1, some rel, inputs =>
    match validateRelease discs rel with
    | .accepted media => .proceed media [] inputs
    | .keyError _ => .crashed [] inputs
    | .rejectedDisc =>
      let m := manual_input cat inputs
      prependEvs m.evs (valLoopF cat discs fuel m.rel m.rest)
    | .rejectedTrack _ =>
      let m := manual_input cat inputs
      prependEvs m.evs (valLoopF cat discs fuel m.rel m.rest)

/-- The validation loop with sufficient fuel. -/
def valLoop (cat : Catalog) (discs : List (String × List String))
    (fd : Option Release) (inputs : List String) : ValOut :=
  valLoopF cat discs (inputs.length + 2) fd inputs

/-- The three match tiers of lines 284-298. -/
inductive MatchTier where
  | exact
  | close
  | nomatch
deriving DecidableEq

/-- Tier classification of the candidate under consideration:
`album_name == release_title and artist_name == release_artist` is the
Exact tier; otherwise `is_close_match(album_name, release_title)` is the
Close tier; otherwise no match. -/
def classifyTier (albumName : String) (artistName : Option String)
    (c : Candidate) : MatchTier :=
  if albumName = c.title ∧ artistName = some (relArtist c) then .exact
  else if isCloseMatch albumName c.title then .close
  else .nomatch

/-- The tier-resolution step for one candidate (lines 284-298): the
initial `full_details`, the prompt events emitted, and the remaining
operator script.  The Close tier consumes one yes/no reply
(`.strip().lower()`), declining falls through to `manual_input`. -/
def tierPhase (cat : Catalog) (albumName : String) (artistName : Option String)
    (c : Candidate) (inputs : List String) :
    Option Release × List Event × List String :=
  match classifyTier albumName artistName c with
  | .exact => (fetch_full_release_details cat c.id, [], inputs)
  | .close =>
    match inputs with
    | [] =>
      let m := manual_input cat []
      (m.rel, .promptClose "" :: m.evs, m.rest)
    | r :: rs =>
      let rep := pyLower (pyStrip r)
      if rep = "y" then (fetch_full_release_details cat c.id, [.promptClose rep], rs)
      else
        let m := manual_input cat rs
        (m.rel, .promptClose rep :: m.evs, m.rest)
  | .nomatch =>
    let m := manual_input cat inputs
    (m.rel, m.evs, m.rest)

/-- Result of processing one album: its event trace, whether an uncaught
exception aborted the run, and the remaining operator script. -/
structure PResult where
  events : List Event
  crashed : Bool
  rest : List String
deriving DecidableEq

/-- The application loop (lines 338-339): run `update_metadata` per
validated medium.  A `none` from `update_metadata` is the uncaught
`ValueError`: earlier discs' events stand, later discs are not reached,
and the run aborts.  The `getD []` for `discs[medium_number]` is
unreachable for validated media (every accepted key was looked up
successfully during validation). -/
def applyPhase (discs : List (String × List String)) :
    List (String × List TrackMeta) → List Event × Bool
  | [] => ([], false)
  | (pos, metas) :: ms =>
    match update_metadata ((List.lookup pos discs).getD []) metas with
    | none => ([], true)
    | some evs =>
      let r := applyPhase discs ms
      (evs ++ r.1, r.2)

/-- Loop control of the `for match in matches` body: every path of the
source body ends in `break` (the final `break` at line 341, the
`while`-`else` `break` at line 336, or an uncaught exception). -/
inductive LoopCtl where
  | brk
  | cont (inputs : List String)
deriving DecidableEq

/-- The body of `for match in matches` (lines 279-341) for one
candidate: tier resolution, the validation loop, then application.  The
returned control is the loop terminator of the path taken (`brk` on
every path of the source). -/
def candBody (cat : Catalog) (discs : List (String × List String))
    (albumName : String) (artistName : Option String) (c : Candidate)
    (inputs : List String) : PResult × LoopCtl :=
  let t := tierPhase cat albumName artistName c inputs
  match valLoop cat discs t.1 t.2.2 with
  | .skipped evs rest => (⟨t.2.1 ++ evs, false, rest⟩, .brk)
  | .crashed evs rest => (⟨t.2.1 ++ evs, true, rest⟩, .brk)
  | .proceed media evs rest =>
    let a := applyPhase discs media
    (⟨t.2.1 ++ evs ++ a.1, a.2, rest⟩, .brk)

/-- The `for match in matches` loop: run the body, stop on `brk`,
otherwise continue with the rest of the candidates. -/
def candLoop (cat : Catalog) (discs : List (String × List String))
    (albumName : String) (artistName : Option String) :
    List Candidate → List String → PResult
  | [], inputs => ⟨[], false, inputs⟩
  | c :: rest, inputs =>
    match candBody cat discs albumName artistName c inputs with
    | (r, .brk) => r
    | (r, .cont ins) =>
      let r' := candLoop cat discs albumName artistName rest ins
      ⟨r.events ++ r'.events, r'.crashed, r'.rest⟩

/-- Processing of one album (the body of `for album_name, discs in
albums.items()`, lines 246-341): the guards on the first disc and first
file (`continue` on a falsy disc key, an empty album, an empty first
disc, or an unsupported first file), best-effort artist extraction (an
exception leaves `artist_name = None`), the search, and the candidate
loop. -/
def processAlbum (cat : Catalog) (env : TagEnv) (albumName : String)
    (discs : List (String × List String)) (inputs : List String) : PResult :=
  match discs with
  | [] => ⟨[], false, inputs⟩
  | (d0, files0) :: _ =>
    if d0 = "" then ⟨[], false, inputs⟩
    else
      match files0 with
      | [] => ⟨[], false, inputs⟩
      | f0 :: _ =>
        if pyEndsWith ".mp3" f0 || pyEndsWith ".flac" f0 then
          let artistName : Option String :=
            match env f0 with
            | none => none
            | some tag => tag.artist
          candLoop cat discs albumName artistName
            (cat.search albumName artistName) inputs
        else ⟨[], false, inputs⟩

/-- The whole run over the discovered albums (sequential, threading the
operator script; an uncaught exception aborts the run, otherwise the
next album is processed). -/
def runAlbums (cat : Catalog) (env : TagEnv) :
    List (String × List (String × List String)) → List String → PResult
  | [], inputs => ⟨[], false, inputs⟩
  | (name, discs) :: rest, inputs =>
    let r := processAlbum cat env name discs inputs
    if r.crashed then r
    else
      let r' := runAlbums cat env rest r.rest
      ⟨r.events ++ r'.events, r'.crashed, r'.rest⟩

/-! Concrete fixtures for counterexamples and witnesses. -/

/-- A tag environment whose every read succeeds with album `"X"` and
artist `"A"`. -/
def envX : TagEnv := fun _ => some ⟨some "X", some "A"⟩

/-- A tag environment whose every read succeeds with album
`"X (CD 2)"` and no artist. -/
def envCD : TagEnv := fun _ => some ⟨some "X (CD 2)", none⟩

/-- A tag environment whose every read succeeds with album `"X"` and no
artist. -/
def envPlain : TagEnv := fun _ => some ⟨some "X", none⟩

/-- A one-disc release (position `"1"`, one track) with a resolved
title and date. -/
def relOne : Release :=
  ⟨some "Best Of", some "2001", [⟨some "1", [⟨some "Song One", some "Artist A", some "1"⟩]⟩]⟩

/-- A release whose single medium sits at position `"2"`. -/
def relPosTwo : Release :=
  ⟨some "T", none, [⟨some "2", [⟨some "S", some "A", some "1"⟩]⟩]⟩

/-- A release with two media at positions `"2"` and `"3"`. -/
def relTwoThree : Release :=
  ⟨some "T", none,
    [⟨some "2", [⟨some "S", some "A", some "1"⟩]⟩,
     ⟨some "3", [⟨some "S2", some "A", some "1"⟩]⟩]⟩

/-- One local disc `"1"` holding one mp3 file. -/
def discsOne : List (String × List String) := [("1", ["Input/a.mp3"])]

/-- A catalog whose search returns one exact candidate for album `"X"`
by `"A"`, resolving to `relOne`. -/
def catExactOne : Catalog :=
  ⟨fun _ _ => [⟨"r1", "X", some "A"⟩],
   fun i => if i = "r1" then .ok relOne else .error ()⟩

/-- A catalog whose search returns one exact candidate resolving to the
position-`"2"` release. -/
def catExactPosTwo : Catalog :=
  ⟨fun _ _ => [⟨"r1", "X", some "A"⟩],
   fun i => if i = "r1" then .ok relPosTwo else .error ()⟩

/-- A catalog whose search returns one clearly unrelated candidate and
whose every fetch fails. -/
def catNoMatch : Catalog :=
  ⟨fun _ _ => [⟨"r1", "ZZZZ", some "B"⟩], fun _ => .error ()⟩

/-- A catalog for the Manual-Resolution counterexample: the free-text
search finds a candidate, but fetching it raises a service error. -/
def catC9 : Catalog :=
  ⟨fun q _ => if q = "Foo" then [⟨"id0", "FooX", some "B"⟩] else [],
   fun _ => .error ()⟩

/-- The shape condition the validator enforces on an accepted `media`
map: every disc position has a local disc, and its accumulated track
count equals that disc's file count. -/
def mediaOkL (discs : List (String × List String))
    (media : List (String × List TrackMeta)) : Prop :=
  ∀ pos ∈ media.map Prod.fst, ∃ files, List.lookup pos discs = some files ∧
    ((List.lookup pos media).getD []).length = files.length

/-- The invariant of the validation loop's outcomes: emitted events are
prompts, a produced (`proceed`/`crashed`) trace carries no empty
resolution reply, and a `proceed` media map comes from an accepted
validation. -/
def valOutOK (discs : List (String × List String)) (v : ValOut) : Prop :=
  match v with
  | .proceed media evs _ =>
    evs.all isPromptEvent = true ∧
    evs.all (fun e => !isEmptyResolutionReply e) = true ∧
    ∃ rel, validateRelease discs rel = VRes.accepted media
  | .crashed evs _ =>
    evs.all isPromptEvent = true ∧
    evs.all (fun e => !isEmptyResolutionReply e) = true
  | .skipped evs _ => evs.all isPromptEvent = true

/-! Theorems. -/

/-- C5: the claim says a track whose position text has a non-numeric
prefix is given filename number `"00"` with a warning and aborts
nothing.  In the code, the unguarded `int(...)` inside the sort key of
`update_metadata` raises `ValueError` first, aborting every file of the
disc (`none`); the `"00"` fallback is reachable only for text that
`int` parses but `isdigit` rejects (such as `"-1"`), where the files do
get the warning and proceed. -/
theorem C5_nonnumeric_track_aborts_disc :
    update_metadata ["Input/01.mp3", "Input/02.mp3"]
      [⟨"T1", "A", "Al", "", "abc"⟩, ⟨"T2", "A", "Al", "", "1"⟩] = none ∧
    update_metadata ["Input/01.mp3"] [⟨"T", "A", "Al", "", "-1"⟩] =
      some [.tagWrite "Input/01.mp3" "T" "A" (some "Al") "-1" none,
            .warnInvalidTrack "-1",
            .rename "Input/01.mp3" "Input/00 - T.mp3"] := by
  constructor
  · decide
  · decide

/-- C6: the claim says no uncaught exception aborts the run.  With one
local disc `"1"` and an accepted release whose only medium sits at
position `"2"`, the validator's `discs[medium_number]` raises an
uncaught `KeyError` and the run aborts. -/
theorem C6_uncaught_keyerror_aborts_run :
    (runAlbums catExactPosTwo envX [("X", discsOne)] []).crashed = true := by
  decide

/-- C1 counterexample: a release whose two distinct disc positions
(`"2"`, `"3"`) exceed the one local disc is not rejected — validation
dies with the uncaught `KeyError` on `discs["2"]` before the disc-count
excess check can fire. -/
theorem C1_counterexample :
    1 < distinctPositions relTwoThree ∧ discsOne.length = 1 ∧
    validateRelease discsOne relTwoThree = VRes.keyError "2" := by
  decide

/-- C2 counterexample: `"song.wav"` passes the extension filter of
`gather_all_files` but the grouping loop skips it (only `.mp3` and
`.flac` are read), so it lands in no bucket. -/
theorem C2_counterexample :
    audioExtFilter "song.wav" = true ∧
    group_tracks_by_album envPlain ["song.wav"] = [] := by
  decide

/-- C7 counterexample: the album-tag pattern recognizes only `"Disc"`,
not `"CD"`.  A file tagged `"X (CD 2)"` with no path marker keeps the
suffix in its album key and defaults to disc `"1"`, against the claim's
predicted key `"X"` and disc `"2"`. -/
theorem C7_counterexample :
    group_tracks_by_album envCD ["x.mp3"] = [("X (CD 2)", [("1", ["x.mp3"])])] ∧
    albumFirstDisc "X (CD 2)" = none ∧
    pathDiscSearch "x.mp3" = none := by
  decide

/-- C8 counterexample: the final `str.strip()` of `clean_file_name`
removes characters outside the unsafe set, so a string containing no
unsafe character is still altered. -/
theorem C8_counterexample :
    clean_file_name " a " = "a" ∧ (" a " : String) ≠ "a" := by
  decide

/-- C9 counterexample: on the free-text path a fetch failure is
swallowed inside `fetch_full_release_details`, so resolution ends with
no release and no retry prompt is ever offered. -/
theorem C9_counterexample :
    fetch_full_release_details catC9 "id0" = none ∧
    manual_input catC9 ["Foo"] = ⟨none, [.promptManual "Foo"], []⟩ := by
  decide

/-- C7 amended: disc resolution runs in the claimed priority order —
album-tag marker first, then a path marker, then the default `"1"` —
but the album-tag pattern recognizes only `"Disc"`, with `"CD"` markers
recognized in the file path alone (conjuncts four to six), and while
the tag marker is *found* case-insensitively, the suffix is *stripped*
from the album key only where it matches case-exactly, since the
`re.sub` passes no flags (last three conjuncts: a lowercase `disc`
marker sets the disc number yet stays in the grouping key). -/
theorem C7_resolution_order :
    ∀ (f tag : String),
    (∀ d, albumFirstDisc tag = some d →
      resolveDisc f tag = (pyStrip (albumStripAll tag), d)) ∧
    (albumFirstDisc tag = none → ∀ d, pathDiscSearch f = some d →
      resolveDisc f tag = (tag, d)) ∧
    (albumFirstDisc tag = none → pathDiscSearch f = none →
      resolveDisc f tag = (tag, "1")) ∧
    pathDiscSearch "Input/CD 2/x.mp3" = some "2" ∧
    albumFirstDisc "Y (CD 2)" = none ∧
    albumFirstDisc "Y (Disc 2)" = some "2" ∧
    resolveDisc "x.mp3" "Y (disc 2)" = ("Y (disc 2)", "2") ∧
    resolveDisc "x.mp3" "Y (Disc 2)" = ("Y", "2") ∧
    pyStrip (albumStripAll "Y (disc 2)") = "Y (disc 2)" := by
  intro f tag
  refine ⟨?_, ?_, ?_, by decide, by decide, by decide, by decide, by decide, by decide⟩
  · intro d h
    simp [resolveDisc, h]
  · intro h d hp
    simp [resolveDisc, h, hp]
  · intro h hp
    simp [resolveDisc, h, hp]

/-- Witness for C7: a path marker is used when the album tag carries no
`Disc` marker. -/
theorem C7_resolution_order_witness :
    resolveDisc "a/Disc 3/f.mp3" "Y" = ("Y", "3") :=
  (C7_resolution_order "a/Disc 3/f.mp3" "Y").2.1 (by decide) "3" (by decide)

/-- C8 amended: every character of the unsafe class maps through the
fixed table (`<` to `(`, `>` to `)`, `:` to `-`, the double quote to the
single quote, `/`, `\`, `|` to `-`, `?`, `*` removed), every other
character passes through unchanged, and the result is then stripped of
leading and trailing whitespace. -/
theorem C8_sanitizer_table_then_strip :
    ∀ s : String,
    clean_file_name s = pyStrip (String.join (s.data.map (fun c =>
      if c = '<' then "("
      else if c = '>' then ")"
      else if c = ':' then "-"
      else if c = Char.ofNat 34 then String.singleton (Char.ofNat 39)
      else if c = '/' then "-"
      else if c = '\\' then "-"
      else if c = '|' then "-"
      else if c = '?' then ""
      else if c = '*' then ""
      else String.singleton c))) := by
  intro s
  have hfun : ∀ c : Char,
      (if c ∈ unsafeChars then (replacementFor c).getD "_" else String.singleton c)
        = (if c = '<' then "("
           else if c = '>' then ")"
           else if c = ':' then "-"
           else if c = Char.ofNat 34 then String.singleton (Char.ofNat 39)
           else if c = '/' then "-"
           else if c = '\\' then "-"
           else if c = '|' then "-"
           else if c = '?' then ""
           else if c = '*' then ""
           else String.singleton c) := by
    intro c
    by_cases h1 : c = '<'
    · subst h1; decide
    by_cases h2 : c = '>'
    · subst h2; decide
    by_cases h3 : c = ':'
    · subst h3; decide
    by_cases h4 : c = Char.ofNat 34
    · subst h4; decide
    by_cases h5 : c = '/'
    · subst h5; decide
    by_cases h6 : c = '\\'
    · subst h6; decide
    by_cases h7 : c = '|'
    · subst h7; decide
    by_cases h8 : c = '?'
    · subst h8; decide
    by_cases h9 : c = '*'
    · subst h9; decide
    simp [unsafeChars, h1, h2, h3, h4, h5, h6, h7, h8, h9]
  unfold clean_file_name cleanSub
  rw [funext hfun]

/-- Every path of the candidate-loop body terminates the loop: the
source body ends in `break` on all of its paths. -/
theorem candBody_ctl (cat : Catalog) (discs : List (String × List String))
    (a : String) (ar : Option String) (c : Candidate) (inputs : List String) :
    (candBody cat discs a ar c inputs).2 = LoopCtl.brk := by
  cases hv : valLoop cat discs (tierPhase cat a ar c inputs).1
      (tierPhase cat a ar c inputs).2.2 <;>
    simp [candBody, hv]

/-- C10: only the first search candidate is ever classified and
processed; the body always breaks, so the loop result ignores every
remaining candidate. -/
theorem C10_only_first_candidate :
    ∀ (cat : Catalog) (discs : List (String × List String)) (a : String)
      (ar : Option String) (c : Candidate) (rest : List Candidate)
      (inputs : List String),
    (candBody cat discs a ar c inputs).2 = LoopCtl.brk ∧
    candLoop cat discs a ar (c :: rest) inputs = (candBody cat discs a ar c inputs).1 := by
  intro cat discs a ar c rest inputs
  refine ⟨candBody_ctl cat discs a ar c inputs, ?_⟩
  have h := candBody_ctl cat discs a ar c inputs
  unfold candLoop
  rcases hb : candBody cat discs a ar c inputs with ⟨r, ctl⟩
  rw [hb] at h
  cases ctl
  · simp
  · exact absurd h (by simp)

/-- `manual_input` always issues its free-text prompt. -/
theorem manualInput_has_prompt (cat : Catalog) (ins : List String) :
    containsPrompt (manual_input cat ins).evs = true := by
  cases ins with
  | nil => rfl
  | cons raw rest =>
    simp only [manual_input]
    split
    · rfl
    · split
      · split
        · rfl
        · split <;> rfl
      · split <;> rfl

/-- Every event `manual_input` emits is an operator prompt. -/
theorem manualInput_evs_prompts (cat : Catalog) (ins : List String) :
    (manual_input cat ins).evs.all isPromptEvent = true := by
  cases ins with
  | nil => rfl
  | cons raw rest =>
    simp only [manual_input]
    split
    · rfl
    · split
      · split
        · rfl
        · split <;> rfl
      · split <;> rfl

/-- When `manual_input` produces a release, none of its prompts carried
an empty reply (the empty-reply branches all return `none`). -/
theorem manualInput_some_no_empty (cat : Catalog) (ins : List String) (r : Release) :
    (manual_input cat ins).rel = some r →
    (manual_input cat ins).evs.all (fun e => !isEmptyResolutionReply e) = true := by
  cases ins with
  | nil => intro h; simp [manual_input] at h
  | cons raw rest =>
    intro h
    by_cases h0 : pyStrip raw = ""
    · simp [manual_input, h0] at h
    · by_cases h1 : isValidReleaseId (pyStrip raw) = true
      · cases hg : cat.getById (pyStrip raw) with
        | ok r' => simp [manual_input, h0, h1, hg, isEmptyResolutionReply]
        | error e =>
          cases rest with
          | nil => simp [manual_input, h0, h1, hg] at h
          | cons r0 rest' => simp [manual_input, h0, h1, hg] at h
      · cases hs : cat.search (pyStrip raw) none with
        | nil => simp [manual_input, h0, h1, hs] at h
        | cons c tail => simp [manual_input, h0, h1, hs, isEmptyResolutionReply]

/-- Prompt events are not file actions. -/
theorem prompt_not_file (e : Event) :
    isPromptEvent e = true → isFileAction e = false := by
  cases e <;> simp [isPromptEvent, isFileAction]

/-- Empty resolution replies are prompt events. -/
theorem empty_reply_is_prompt (e : Event) :
    isEmptyResolutionReply e = true → isPromptEvent e = true := by
  cases e <;> simp [isEmptyResolutionReply, isPromptEvent]

/-- A trace of prompts mutates no file. -/
theorem all_prompts_noFileAction (evs : List Event) :
    evs.all isPromptEvent = true → noFileAction evs = true := by
  intro h
  unfold noFileAction
  rw [List.all_eq_true] at h ⊢
  intro e he
  simp [prompt_not_file e (h e he)]

/-- If `manual_input`'s trace carries an empty reply, it produced no
release. -/
theorem manualInput_empty_none (cat : Catalog) (ins : List String) :
    (∃ e ∈ (manual_input cat ins).evs, isEmptyResolutionReply e = true) →
    (manual_input cat ins).rel = none := by
  intro hex
  rcases hrel : (manual_input cat ins).rel with _ | r
  · rfl
  · have hall := manualInput_some_no_empty cat ins r hrel
    rcases hex with ⟨e, he, hemp⟩
    rw [List.all_eq_true] at hall
    have := hall e he
    simp [hemp] at this

/-- A fuel-starved or `none`-seeded validation loop is skipped. -/
theorem valLoopF_none (cat : Catalog) (discs : List (String × List String)) :
    ∀ (fuel : Nat) (inputs : List String),
    valLoopF cat discs fuel none inputs = .skipped [] inputs := by
  intro fuel inputs
  cases fuel <;> rfl

/-- `valOutOK` survives prefixing prompt events that carry no empty
reply. -/
theorem prependOK (discs : List (String × List String)) (pre : List Event)
    (v : ValOut) (hp : pre.all isPromptEvent = true)
    (hne : pre.all (fun e => !isEmptyResolutionReply e) = true)
    (hv : valOutOK discs v) : valOutOK discs (prependEvs pre v) := by
  cases v <;> simp_all [prependEvs, valOutOK, List.all_append]

/-- The validation loop invariant holds for every fuel, seed, and
operator script. -/
theorem valLoopF_ok (cat : Catalog) (discs : List (String × List String)) :
    ∀ (fuel : Nat) (fd : Option Release) (inputs : List String),
    valOutOK discs (valLoopF cat discs fuel fd inputs) := by
  intro fuel
  induction fuel with
  | zero =>
    intro fd inputs
    simp [valLoopF, valOutOK]
  | succ n ih =>
    intro fd inputs
    cases fd with
    | none => simp [valLoopF, valOutOK]
    | some rel =>
      simp only [valLoopF]
      rcases hv : validateRelease discs rel with media | _ | p | p
      · exact ⟨by simp, by simp, rel, hv⟩
      · rcases hrel : (manual_input cat inputs).rel with _ | r'
        · rw [valLoopF_none]
          simpa [prependEvs, valOutOK, List.all_append] using
            manualInput_evs_prompts cat inputs
        · exact prependOK discs _ _ (manualInput_evs_prompts cat inputs)
            (manualInput_some_no_empty cat inputs r' hrel) (ih _ _)
      · rcases hrel : (manual_input cat inputs).rel with _ | r'
        · rw [valLoopF_none]
          simpa [prependEvs, valOutOK, List.all_append] using
            manualInput_evs_prompts cat inputs
        · exact prependOK discs _ _ (manualInput_evs_prompts cat inputs)
            (manualInput_some_no_empty cat inputs r' hrel) (ih _ _)
      · exact ⟨by simp, by simp⟩

/-- The validation loop's invariant, at the wrapper. -/
theorem valLoop_ok (cat : Catalog) (discs : List (String × List String))
    (fd : Option Release) (inputs : List String) :
    valOutOK discs (valLoop cat discs fd inputs) :=
  valLoopF_ok cat discs _ fd inputs

/-- A `none` seed skips the album at once. -/
theorem valLoop_none (cat : Catalog) (discs : List (String × List String))
    (inputs : List String) :
    valLoop cat discs none inputs = .skipped [] inputs :=
  valLoopF_none cat discs _ inputs

/-- The tier phase emits only prompts. -/
theorem tierPhase_evs_prompts (cat : Catalog) (a : String) (ar : Option String)
    (c : Candidate) (inputs : List String) :
    (tierPhase cat a ar c inputs).2.1.all isPromptEvent = true := by
  unfold tierPhase
  rcases classifyTier a ar c
  · rfl
  · cases inputs with
    | nil =>
      simp [List.all_cons, isPromptEvent, manualInput_evs_prompts]
    | cons r rs =>
      by_cases hrep : pyLower (pyStrip r) = "y"
      · simp [hrep, isPromptEvent]
      · simp [hrep, List.all_cons, isPromptEvent, manualInput_evs_prompts]
  · exact manualInput_evs_prompts cat inputs

/-- A trace headed by a Close-prompt reply whose tail is a
`manual_input` trace carries an empty resolution reply only if that
`manual_input` returned no release. -/
theorem close_decline_none (cat : Catalog) (rs : List String) (rep : String) :
    (∃ e ∈ (Event.promptClose rep :: (manual_input cat rs).evs),
        isEmptyResolutionReply e = true) →
    (manual_input cat rs).rel = none := by
  rintro ⟨e, he, hemp⟩
  rcases List.mem_cons.mp he with he | he
  · subst he
    simp [isEmptyResolutionReply] at hemp
  · exact manualInput_empty_none cat rs ⟨e, he, hemp⟩

/-- If the tier phase's trace carries an empty resolution reply, it
produced no initial release. -/
theorem tierPhase_empty_none (cat : Catalog) (a : String) (ar : Option String)
    (c : Candidate) (inputs : List String) :
    (∃ e ∈ (tierPhase cat a ar c inputs).2.1, isEmptyResolutionReply e = true) →
    (tierPhase cat a ar c inputs).1 = none := by
  intro hex
  unfold tierPhase at hex ⊢
  rcases hc : classifyTier a ar c with _ | _ | _ <;> simp only [hc] at hex ⊢
  · rcases hex with ⟨e, he, _⟩
    simp at he
  · cases inputs with
    | nil => rfl
    | cons r rs =>
      rcases hex with ⟨e, he, hemp⟩
      by_cases hrep : pyLower (pyStrip r) = "y"
      · simp [hrep] at he
        simp [he, isEmptyResolutionReply] at hemp
      · simp [hrep] at he ⊢
        rcases he with he | he
        · simp [he, isEmptyResolutionReply] at hemp
        · exact manualInput_empty_none cat rs ⟨e, he, hemp⟩
  · exact manualInput_empty_none cat inputs hex

/-- The per-file applier emits no prompt events. -/
theorem fileEvents_not_prompt (p : String × TrackMeta) :
    (fileEvents p).all (fun e => !isPromptEvent e) = true := by
  simp only [fileEvents]
  split
  · split <;> split <;> split <;> simp [isPromptEvent]
  · rfl

/-- Folding the applier over sorted pairs preserves a prompt-free
accumulator. -/
theorem foldAppend_not_prompt :
    ∀ (l : List (String × TrackMeta)) (acc : List Event),
    acc.all (fun e => !isPromptEvent e) = true →
    (l.foldl (fun evs p => evs ++ fileEvents p) acc).all
      (fun e => !isPromptEvent e) = true := by
  intro l
  induction l with
  | nil => intro acc h; exact h
  | cons p ps ih =>
    intro acc h
    exact ih _ (by simp [List.all_append, h, fileEvents_not_prompt p])

/-- `update_metadata` emits no prompt events. -/
theorem update_metadata_not_prompt (files : List String) (metas : List TrackMeta)
    (evs : List Event) :
    update_metadata files metas = some evs →
    evs.all (fun e => !isPromptEvent e) = true := by
  simp only [update_metadata]
  split
  · intro h
    rw [Option.some_inj] at h
    rw [← h]
    exact foldAppend_not_prompt _ [] rfl
  · intro h
    exact absurd h (by simp)

/-- The application phase emits no prompt events. -/
theorem applyPhase_not_prompt (discs : List (String × List String)) :
    ∀ media, (applyPhase discs media).1.all (fun e => !isPromptEvent e) = true := by
  intro media
  induction media with
  | nil => rfl
  | cons pm ms ih =>
    obtain ⟨pos, metas⟩ := pm
    simp only [applyPhase]
    cases hu : update_metadata ((List.lookup pos discs).getD []) metas with
    | none => rfl
    | some evs =>
      simp [List.all_append, update_metadata_not_prompt _ _ _ hu, ih]

/-- The candidate loop processes only the head candidate: the body
always breaks. -/
theorem candLoop_cons (cat : Catalog) (discs : List (String × List String))
    (a : String) (ar : Option String) (c : Candidate) (rest : List Candidate)
    (inputs : List String) :
    candLoop cat discs a ar (c :: rest) inputs = (candBody cat discs a ar c inputs).1 := by
  have h := candBody_ctl cat discs a ar c inputs
  unfold candLoop
  rcases hb : candBody cat discs a ar c inputs with ⟨r, ctl⟩
  rw [hb] at h
  cases ctl
  · simp
  · exact absurd h (by simp)

/-- Pointwise extraction from an all-no-empty trace. -/
theorem mem_all_not_empty {evs : List Event} {e : Event}
    (h : evs.all (fun x => !isEmptyResolutionReply x) = true) (he : e ∈ evs) :
    isEmptyResolutionReply e = false := by
  rw [List.all_eq_true] at h
  simpa using h e he

/-- Pointwise extraction from an all-no-prompt trace. -/
theorem mem_all_not_prompt {evs : List Event} {e : Event}
    (h : evs.all (fun x => !isPromptEvent x) = true) (he : e ∈ evs) :
    isPromptEvent e = false := by
  rw [List.all_eq_true] at h
  simpa using h e he

/-- If the candidate body's trace carries an empty resolution reply,
the body mutated no file and did not crash (the release seed was lost
before validation could accept anything). -/
theorem candBody_empty_reply (cat : Catalog) (discs : List (String × List String))
    (a : String) (ar : Option String) (c : Candidate) (inputs : List String) :
    (∃ e ∈ (candBody cat discs a ar c inputs).1.events, isEmptyResolutionReply e = true) →
    noFileAction (candBody cat discs a ar c inputs).1.events = true ∧
    (candBody cat discs a ar c inputs).1.crashed = false := by
  intro hex
  have hok := valLoop_ok cat discs (tierPhase cat a ar c inputs).1
    (tierPhase cat a ar c inputs).2.2
  rcases hv : valLoop cat discs (tierPhase cat a ar c inputs).1
      (tierPhase cat a ar c inputs).2.2 with ⟨media, evs, rest⟩ | ⟨evs, rest⟩ | ⟨evs, rest⟩ <;>
    rw [hv] at hok <;> simp only [valOutOK] at hok <;>
    simp only [candBody, hv] at hex ⊢
  · exfalso
    rcases hex with ⟨e, he, hemp⟩
    rw [List.mem_append] at he
    rcases he with he | he
    · rw [List.mem_append] at he
      rcases he with he | he
      · have hnone := tierPhase_empty_none cat a ar c inputs ⟨e, he, hemp⟩
        rw [hnone, valLoop_none] at hv
        exact ValOut.noConfusion hv
      · rw [mem_all_not_empty hok.2.1 he] at hemp
        exact Bool.noConfusion hemp
    · have hnp := mem_all_not_prompt (applyPhase_not_prompt discs media) he
      rw [empty_reply_is_prompt e hemp] at hnp
      exact Bool.noConfusion hnp
  · constructor
    · apply all_prompts_noFileAction
      rw [List.all_append]
      simp [tierPhase_evs_prompts, hok]
    · trivial
  · exfalso
    rcases hex with ⟨e, he, hemp⟩
    rw [List.mem_append] at he
    rcases he with he | he
    · have hnone := tierPhase_empty_none cat a ar c inputs ⟨e, he, hemp⟩
      rw [hnone, valLoop_none] at hv
      exact ValOut.noConfusion hv
    · rw [mem_all_not_empty hok.2 he] at hemp
      exact Bool.noConfusion hemp

/-- `candBody_empty_reply` lifted to the candidate loop. -/
theorem candLoop_empty_reply (cat : Catalog) (discs : List (String × List String))
    (a : String) (ar : Option String) (cands : List Candidate) (inputs : List String) :
    (∃ e ∈ (candLoop cat discs a ar cands inputs).events, isEmptyResolutionReply e = true) →
    noFileAction (candLoop cat discs a ar cands inputs).events = true ∧
    (candLoop cat discs a ar cands inputs).crashed = false := by
  cases cands with
  | nil => exact fun _ => ⟨rfl, rfl⟩
  | cons c rest =>
    rw [candLoop_cons]
    exact candBody_empty_reply cat discs a ar c inputs

/-- C4: whenever the operator submits empty input at a resolution
prompt (the Manual prompt or the retry prompt), the album's processing
mutates no file, and no uncaught exception fires, so the run proceeds
to the next album. -/
theorem C4_operator_abandonment :
    ∀ (cat : Catalog) (env : TagEnv) (albumName : String)
      (discs : List (String × List String)) (inputs : List String),
    (∃ e ∈ (processAlbum cat env albumName discs inputs).events,
        isEmptyResolutionReply e = true) →
    noFileAction (processAlbum cat env albumName discs inputs).events = true ∧
    (processAlbum cat env albumName discs inputs).crashed = false := by
  intro cat env albumName discs inputs
  cases discs with
  | nil => exact fun _ => ⟨rfl, rfl⟩
  | cons hd drest =>
    obtain ⟨dk, files0⟩ := hd
    simp only [processAlbum]
    split
    · exact fun _ => ⟨rfl, rfl⟩
    · split
      · exact fun _ => ⟨rfl, rfl⟩
      · split
        · exact candLoop_empty_reply cat _ albumName _ _ inputs
        · exact fun _ => ⟨rfl, rfl⟩

/-- Witness for C4: a no-match album whose operator script is a single
empty reply is skipped with no writes and no crash. -/
theorem C4_operator_abandonment_witness :
    noFileAction (processAlbum catNoMatch envX "X" discsOne [""]).events = true ∧
    (processAlbum catNoMatch envX "X" discsOne [""]).crashed = false :=
  C4_operator_abandonment catNoMatch envX "X" discsOne [""]
    ⟨.promptManual "", by decide, by decide⟩

/-- A non-exact tier always involves the operator: the tier phase emits
a prompt. -/
theorem tierPhase_prompt (cat : Catalog) (a : String) (ar : Option String)
    (c : Candidate) (inputs : List String)
    (h : classifyTier a ar c ≠ .exact) :
    containsPrompt (tierPhase cat a ar c inputs).2.1 = true := by
  unfold tierPhase
  rcases hc : classifyTier a ar c with _ | _ | _ <;> simp only [hc]
  · exact absurd hc h
  · cases inputs with
    | nil => simp [containsPrompt, isPromptEvent]
    | cons r rs =>
      by_cases hrep : pyLower (pyStrip r) = "y"
      · simp [hrep, containsPrompt, isPromptEvent]
      · simp [hrep, containsPrompt, isPromptEvent]
  · exact manualInput_has_prompt cat inputs

/-- Prompts of the tier phase survive into the candidate body's trace. -/
theorem candBody_contains_tier_prompts (cat : Catalog)
    (discs : List (String × List String)) (a : String) (ar : Option String)
    (c : Candidate) (inputs : List String)
    (h : containsPrompt (tierPhase cat a ar c inputs).2.1 = true) :
    containsPrompt (candBody cat discs a ar c inputs).1.events = true := by
  rcases hv : valLoop cat discs (tierPhase cat a ar c inputs).1
      (tierPhase cat a ar c inputs).2.2 with ⟨media, evs, rest⟩ | ⟨evs, rest⟩ | ⟨evs, rest⟩ <;>
    simp only [candBody, hv] <;>
    simp only [containsPrompt, List.any_append] at h ⊢ <;>
    simp [h]

/-- C3: the Matcher auto-accepts only on the Exact tier, which holds
precisely when the candidate title equals the album name and its
primary artist equals the local artist under plain (case-sensitive)
string equality; any non-exact candidate — however similar its title —
puts an operator prompt in the trace (the Close confirmation or a
Manual-Resolution prompt). -/
theorem C3_exact_tier_gate :
    ∀ (a : String) (ar : Option String) (c : Candidate) (cat : Catalog)
      (discs : List (String × List String)) (inputs : List String),
    (classifyTier a ar c = .exact ↔ (a = c.title ∧ ar = some (relArtist c))) ∧
    (classifyTier a ar c ≠ .exact →
      containsPrompt (candBody cat discs a ar c inputs).1.events = true) := by
  intro a ar c cat discs inputs
  constructor
  · unfold classifyTier
    by_cases h : (a = c.title ∧ ar = some (relArtist c))
    · simp [h]
    · rw [if_neg h]
      constructor
      · intro hcl
        by_cases h2 : isCloseMatch a c.title = true
        · rw [if_pos h2] at hcl
          exact MatchTier.noConfusion hcl
        · rw [if_neg h2] at hcl
          exact MatchTier.noConfusion hcl
      · intro hc
        exact absurd hc h
  · intro hne
    exact candBody_contains_tier_prompts cat discs a ar c inputs
      (tierPhase_prompt cat a ar c inputs hne)

/-- Witness for C3: a dissimilar candidate (no match at any tier)
forces a prompt into the album's trace. -/
theorem C3_exact_tier_gate_witness :
    containsPrompt (candBody catNoMatch discsOne "X" (some "A")
      ⟨"r1", "ZZZZ", some "B"⟩ [""]).1.events = true :=
  (C3_exact_tier_gate "X" (some "A") ⟨"r1", "ZZZZ", some "B"⟩ catNoMatch
    discsOne [""]).2 (by decide)

/-- Keys of the media map after one medium: `addDistinct` in insertion
order. -/
theorem mediaAppend_fst (media : List (String × List TrackMeta)) (pos : String)
    (ts : List TrackMeta) :
    (mediaAppend media pos ts).map Prod.fst = addDistinct (media.map Prod.fst) pos := by
  induction media with
  | nil => simp [mediaAppend, addDistinct]
  | cons hd rest ih =>
    obtain ⟨p, l⟩ := hd
    by_cases hp : p = pos
    · subst hp
      simp [mediaAppend, addDistinct]
    · simp only [mediaAppend, if_neg hp, List.map_cons, ih]
      by_cases hmem : pos ∈ rest.map Prod.fst
      · simp [addDistinct, hmem, Ne.symm hp]
      · simp [addDistinct, hmem, Ne.symm hp]

/-- Lookup of a different key is unchanged by `mediaAppend`. -/
theorem mediaAppend_lookup_ne (media : List (String × List TrackMeta))
    (pos : String) (ts : List TrackMeta) (q : String) (h : q ≠ pos) :
    List.lookup q (mediaAppend media pos ts) = List.lookup q media := by
  have hb : (q == pos) = false := by simpa using h
  induction media with
  | nil =>
    simp [mediaAppend, List.lookup, hb]
  | cons hd rest ih =>
    obtain ⟨p, l⟩ := hd
    by_cases hp : p = pos
    · subst hp
      simp [mediaAppend, List.lookup, hb, ih]
    · simp only [mediaAppend, if_neg hp, List.lookup]
      cases hqp : q == p
      · simp [ih]
      · simp

/-- The validation loop accepts only when every processed disc position
has a matching local disc of equal size, and the media keys are the
distinct positions in encounter order. -/
theorem vGo_accepted (discs : List (String × List String)) (albumT dateT : String) :
    ∀ (ms : List Medium) (media final : List (String × List TrackMeta)),
    vGo discs albumT dateT ms media = .accepted final →
    media.length ≤ discs.length →
    mediaOkL discs media →
    mediaOkL discs final ∧ final.length ≤ discs.length ∧
    final.map Prod.fst =
      (ms.map (fun m => m.position.getD "1")).foldl addDistinct (media.map Prod.fst) := by
  intro ms
  induction ms with
  | nil =>
    intro media final h hlen hok
    simp only [vGo] at h
    injection h with h
    subst h
    exact ⟨hok, hlen, by simp⟩
  | cons m ms ih =>
    intro media final h hlen hok
    simp only [vGo] at h
    generalize hq : m.position.getD "1" = pos at h
    generalize hM :
      mediaAppend media pos (m.trackList.map (mkTrackMeta albumT dateT)) = media' at h
    by_cases hgt : media'.length > discs.length
    · rw [if_pos hgt] at h
      exact absurd h (by simp)
    · rw [if_neg hgt] at h
      cases hlk : List.lookup pos discs with
      | none =>
        simp only [hlk] at h
        exact absurd h (by simp)
      | some files =>
        simp only [hlk] at h
        by_cases hne : ((List.lookup pos media').getD []).length ≠ files.length
        · rw [if_pos hne] at h
          exact absurd h (by simp)
        · rw [if_neg hne] at h
          push_neg at hne
          have hlen' : media'.length ≤ discs.length := by omega
          have hok' : mediaOkL discs media' := by
            intro q hq'
            rw [← hM, mediaAppend_fst] at hq'
            by_cases hqp : q = pos
            · subst hqp
              exact ⟨files, hlk, hne⟩
            · have hq'' : q ∈ media.map Prod.fst := by
                unfold addDistinct at hq'
                by_cases hmem : pos ∈ media.map Prod.fst
                · rwa [if_pos hmem] at hq'
                · rw [if_neg hmem] at hq'
                  rcases List.mem_append.mp hq' with h1 | h1
                  · exact h1
                  · simp at h1
                    exact absurd h1 hqp
              obtain ⟨files', hlk', hcnt'⟩ := hok q hq''
              refine ⟨files', hlk', ?_⟩
              rw [← hM, mediaAppend_lookup_ne media pos _ q hqp]
              exact hcnt'
          obtain ⟨hokf, hlenf, hkeys⟩ := ih media' final h hlen' hok'
          refine ⟨hokf, hlenf, ?_⟩
          rw [hkeys, ← hM, mediaAppend_fst]
          simp [hq]

/-- An accepted release has no more distinct disc positions than local
discs, and each accumulated disc matches its local disc's file count. -/
theorem validateRelease_accepted (discs : List (String × List String))
    (rel : Release) (media : List (String × List TrackMeta))
    (h : validateRelease discs rel = VRes.accepted media) :
    distinctPositions rel ≤ discs.length ∧ mediaOkL discs media := by
  unfold validateRelease at h
  obtain ⟨hok, hlen, hkeys⟩ :=
    vGo_accepted discs _ _ rel.mediumList [] media h (by simp)
      (by intro q hq; simp at hq)
  refine ⟨?_, hok⟩
  unfold distinctPositions
  have : ((rel.mediumList.map (fun m => m.position.getD "1")).foldl addDistinct []).length
      = (media.map Prod.fst).length := by
    rw [hkeys]
    simp
  rw [this, List.length_map]
  exact hlen

/-- A candidate body that performed a file action went through an
accepted validation. -/
theorem candBody_writes_validated (cat : Catalog)
    (discs : List (String × List String)) (a : String) (ar : Option String)
    (c : Candidate) (inputs : List String) :
    noFileAction (candBody cat discs a ar c inputs).1.events = false →
    ∃ rel media, validateRelease discs rel = VRes.accepted media := by
  intro h
  have hok := valLoop_ok cat discs (tierPhase cat a ar c inputs).1
    (tierPhase cat a ar c inputs).2.2
  rcases hv : valLoop cat discs (tierPhase cat a ar c inputs).1
      (tierPhase cat a ar c inputs).2.2 with ⟨media, evs, rest⟩ | ⟨evs, rest⟩ | ⟨evs, rest⟩ <;>
    rw [hv] at hok <;> simp only [valOutOK] at hok <;> simp only [candBody, hv] at h
  · obtain ⟨rel, hrel⟩ := hok.2.2
    exact ⟨rel, media, hrel⟩
  · exfalso
    have hall : ((tierPhase cat a ar c inputs).2.1 ++ evs).all isPromptEvent = true := by
      rw [List.all_append]
      simp [tierPhase_evs_prompts, hok]
    rw [all_prompts_noFileAction _ hall] at h
    exact Bool.noConfusion h
  · exfalso
    have hall : ((tierPhase cat a ar c inputs).2.1 ++ evs).all isPromptEvent = true := by
      rw [List.all_append]
      simp [tierPhase_evs_prompts, hok]
    rw [all_prompts_noFileAction _ hall] at h
    exact Bool.noConfusion h

/-- `candBody_writes_validated` lifted to the candidate loop. -/
theorem candLoop_writes_validated (cat : Catalog)
    (discs : List (String × List String)) (a : String) (ar : Option String)
    (cands : List Candidate) (inputs : List String) :
    noFileAction (candLoop cat discs a ar cands inputs).events = false →
    ∃ rel media, validateRelease discs rel = VRes.accepted media := by
  cases cands with
  | nil =>
    intro h
    exact absurd h (by simp [candLoop, noFileAction])
  | cons c rest =>
    rw [candLoop_cons]
    exact candBody_writes_validated cat discs a ar c inputs

/-- C1 (amended): an accepted release has no disc-count excess and
per-disc track counts equal to the local file counts; and any tag write
or rename for an album implies some release passed both checks — no
file action precedes an accepted validation.  (As stated, the claim
fails: a disc position with no local counterpart raises an uncaught
`KeyError` instead of a rejection; see the counterexample.) -/
theorem C1_structural_validator :
    ∀ (discs : List (String × List String)),
    (∀ (rel : Release) (media : List (String × List TrackMeta)),
       validateRelease discs rel = VRes.accepted media →
       distinctPositions rel ≤ discs.length ∧ mediaOkL discs media) ∧
    (∀ (cat : Catalog) (env : TagEnv) (albumName : String) (inputs : List String),
       noFileAction (processAlbum cat env albumName discs inputs).events = false →
       ∃ rel media, validateRelease discs rel = VRes.accepted media ∧
         distinctPositions rel ≤ discs.length ∧ mediaOkL discs media) := by
  intro discs
  refine ⟨fun rel media h => validateRelease_accepted discs rel media h, ?_⟩
  intro cat env albumName inputs h
  cases discs with
  | nil => simp [processAlbum, noFileAction] at h
  | cons hd drest =>
    obtain ⟨dk, files0⟩ := hd
    simp only [processAlbum] at h
    split at h
    · simp [noFileAction] at h
    · split at h
      · simp [noFileAction] at h
      · split at h
        · obtain ⟨rel, media, hrel⟩ := candLoop_writes_validated cat _ albumName _ _ inputs h
          obtain ⟨h1, h2⟩ := validateRelease_accepted _ rel media hrel
          exact ⟨rel, media, hrel, h1, h2⟩
        · simp [noFileAction] at h

/-- Witness for C1: the happy path (exact match, matching shape)
performs writes, so an accepted validation with the claimed shape
exists for its disc map. -/
theorem C1_structural_validator_witness :
    ∃ rel media, validateRelease discsOne rel = VRes.accepted media ∧
      distinctPositions rel ≤ discsOne.length ∧ mediaOkL discsOne media :=
  (C1_structural_validator discsOne).2 catExactOne envX "X" [] (by decide)

/-- Appending a file to a disc bucket adds exactly one occurrence of
that file. -/
theorem count_appendDisc (dl : List (String × List String)) (disc g f : String) :
    discCount (appendDisc dl disc g) f = discCount dl f + (if g = f then 1 else 0) := by
  by_cases hgf : g = f
  · subst hgf
    rw [if_pos rfl]
    induction dl with
    | nil => simp [appendDisc, discCount]
    | cons hd rest ih =>
      obtain ⟨d, fs⟩ := hd
      by_cases hd' : d = disc
      · subst hd'
        simp [appendDisc, discCount, List.count_append]
        omega
      · simp only [appendDisc, if_neg hd']
        simp only [discCount, List.map_cons, List.sum_cons] at ih ⊢
        omega
  · rw [if_neg hgf, Nat.add_zero]
    induction dl with
    | nil => simp [appendDisc, discCount, List.count_cons, hgf]
    | cons hd rest ih =>
      obtain ⟨d, fs⟩ := hd
      by_cases hd' : d = disc
      · subst hd'
        simp [appendDisc, discCount, List.count_append, List.count_cons, hgf]
      · simp only [appendDisc, if_neg hd']
        simp only [discCount, List.map_cons, List.sum_cons] at ih ⊢
        omega

/-- Appending a file to an album bucket adds exactly one occurrence of
that file across the whole grouping. -/
theorem count_appendFile (A : Albums) (alb disc g f : String) :
    countFile (appendFile A alb disc g) f = countFile A f + (if g = f then 1 else 0) := by
  induction A with
  | nil =>
    by_cases hgf : g = f <;>
      simp [appendFile, countFile, appendDisc, discCount, List.count_cons, hgf]
  | cons hd rest ih =>
    obtain ⟨a, dl⟩ := hd
    by_cases ha : a = alb
    · subst ha
      have hred : appendFile ((a, dl) :: rest) a disc g = (a, appendDisc dl disc g) :: rest := by
        simp [appendFile]
      rw [hred]
      simp only [countFile, List.map_cons, List.sum_cons]
      rw [count_appendDisc]
      omega
    · simp only [appendFile, if_neg ha, countFile, List.map_cons, List.sum_cons] at ih ⊢
      omega

/-- One grouping iteration adds exactly one occurrence of the file when
it is processed, none otherwise. -/
theorem count_groupStep (env : TagEnv) (A : Albums) (g f : String) :
    countFile (groupStep env A g) f =
      countFile A f + (if g = f ∧ processedFile env g = true then 1 else 0) := by
  unfold groupStep
  by_cases hext : (pyEndsWith ".mp3" g || pyEndsWith ".flac" g) = true
  · rw [if_pos hext]
    cases henv : env g with
    | none => simp [processedFile, henv]
    | some tag =>
      rw [count_appendFile]
      by_cases hgf : g = f
      · subst hgf
        simp [processedFile, henv, hext]
      · simp [processedFile, hgf]
  · rw [if_neg hext]
    simp [processedFile, hext]

/-- The grouping fold adds one occurrence per processed matching input
file. -/
theorem count_group_fold (env : TagEnv) :
    ∀ (files : List String) (A : Albums) (f : String),
    countFile (files.foldl (groupStep env) A) f =
      countFile A f + files.countP (fun g => g == f && processedFile env g) := by
  intro files
  induction files with
  | nil => intro A f; simp
  | cons g gs ih =>
    intro A f
    simp only [List.foldl_cons, List.countP_cons]
    rw [ih, count_groupStep]
    by_cases hgf : g = f
    · subst hgf
      by_cases hp : processedFile env g = true
      · simp [hp]
        omega
      · simp [hp]
    · simp [hgf]

/-- On a duplicate-free input containing `f`, the processed-matching
count is one when `f` is processed, zero otherwise. -/
theorem countP_file_nodup (env : TagEnv) :
    ∀ (files : List String) (f : String), files.Nodup → f ∈ files →
    files.countP (fun g => g == f && processedFile env g) =
      if processedFile env f = true then 1 else 0 := by
  intro files
  induction files with
  | nil => intro f _ hf; simp at hf
  | cons g gs ih =>
    intro f hnd hf
    rw [List.nodup_cons] at hnd
    rw [List.countP_cons]
    rcases List.mem_cons.mp hf with hf | hf
    · subst hf
      have hz : gs.countP (fun x => x == f && processedFile env x) = 0 := by
        rw [List.countP_eq_zero]
        intro a ha
        have hne : a ≠ f := fun haf => hnd.1 (haf ▸ ha)
        simp [hne]
      rw [hz]
      by_cases hp : processedFile env f = true <;> simp [hp]
    · have hgf : g ≠ f := fun hgf => hnd.1 (hgf ▸ hf)
      rw [ih f hnd.2 hf]
      simp [hgf]

/-- C2 (amended): on a duplicate-free input, every `.mp3`/`.flac` file
whose tag read succeeds lands in exactly one `(album, disc)` bucket,
and every other file — including `.wav` files, which pass the extension
filter — lands in none. -/
theorem C2_grouper_exactly_one_bucket :
    ∀ (env : TagEnv) (files : List String), files.Nodup → ∀ f ∈ files,
    countFile (group_tracks_by_album env files) f =
      if processedFile env f = true then 1 else 0 := by
  intro env files hnd f hf
  unfold group_tracks_by_album
  rw [count_group_fold, countP_file_nodup env files f hnd hf]
  simp [countFile]

/-- Witness for C2: one mp3 among a wav ends up in exactly one bucket. -/
theorem C2_grouper_exactly_one_bucket_witness :
    countFile (group_tracks_by_album envPlain ["a.mp3", "song.wav"]) "a.mp3" = 1 :=
  Eq.trans
    (C2_grouper_exactly_one_bucket envPlain ["a.mp3", "song.wav"]
      (by decide) "a.mp3" (by decide))
    (by decide)

/-- C9 (amended): Manual Resolution never mutates a file (its trace is
prompts only); on the direct-identifier path a fetch failure offers
exactly one retry prompt and produces no release whatever the reply (on
the free-text path, a fetch failure yields no release with no retry
prompt; see the counterexample). -/
theorem C9_manual_resolution_no_mutation :
    ∀ (cat : Catalog) (inputs : List String),
    noFileAction (manual_input cat inputs).evs = true ∧
    (∀ s rest, inputs = s :: rest → pyStrip s ≠ "" →
      isValidReleaseId (pyStrip s) = true →
      cat.getById (pyStrip s) = Except.error () →
      (manual_input cat inputs).rel = none ∧
      ∃ r, (manual_input cat inputs).evs =
        [Event.promptManual (pyStrip s), Event.promptRetry r]) := by
  intro cat inputs
  constructor
  · exact all_prompts_noFileAction _ (manualInput_evs_prompts cat inputs)
  · intro s rest hin hs hvalid herr
    subst hin
    simp only [manual_input]
    rw [if_neg hs, if_pos hvalid, herr]
    cases rest with
    | nil => exact ⟨rfl, "", rfl⟩
    | cons r0 rest' => exact ⟨rfl, pyLower (pyStrip r0), rfl⟩

/-- Witness for C9: a valid release id whose fetch fails yields one
retry prompt and no release. -/
theorem C9_manual_resolution_no_mutation_witness :
    (manual_input catNoMatch ["aaaaaaaa-aaaa-aaaa-aaaa-aaaaaaaaaaaa", "n"]).rel = none ∧
    ∃ r, (manual_input catNoMatch ["aaaaaaaa-aaaa-aaaa-aaaa-aaaaaaaaaaaa", "n"]).evs =
      [Event.promptManual (pyStrip "aaaaaaaa-aaaa-aaaa-aaaa-aaaaaaaaaaaa"),
       Event.promptRetry r] :=
  (C9_manual_resolution_no_mutation catNoMatch _).2 _ _ rfl (by decide) (by decide) rfl

/-- Behaviour anchors of the Python-primitive embedding on concrete
inputs (values checked against CPython). -/
theorem python_primitive_anchors :
    pyStrip "  a b\t " = "a b" ∧
    pySplit '.' "a.b.mp3" = ["a", "b", "mp3"] ∧
    pySplit '.' "" = [""] ∧
    pyInt "12" = some 12 ∧
    pyInt " -3 " = some (-3) ∧
    pyInt "abc" = none ∧
    pyInt "1_0" = some 10 ∧
    pyIsDigit "-1" = false ∧
    zfill2 "5" = "05" ∧
    clean_file_name "a<b>c" = "a(b)c" ∧
    clean_file_name "w?x*y" = "wxy" ∧
    pyDirname "Input/CD 1/f.mp3" = "Input/CD 1" ∧
    pyDirname "f.mp3" = "" ∧
    pyJoin "" "x.mp3" = "x.mp3" ∧
    isValidReleaseId "aaaaaaaa-aaaa-aaaa-aaaa-aaaaaaaaaaaa" = true ∧
    isValidReleaseId "AAAAAAAA-aaaa-aaaa-aaaa-aaaaaaaaaaaa" = false := by
  decide

/-- Behaviour anchors of the `difflib` embedding, including both sides
of the 0.8 threshold (values checked against CPython's
`SequenceMatcher`). -/
theorem close_match_anchors :
    isCloseMatch "Abbey Road" "abbey road" = true ∧
    isCloseMatch "ab" "zw" = false ∧
    isCloseMatch "abcde" "abcdX" = true ∧
    isCloseMatch "abcde" "abXXX" = false := by
  decide

/-- Behaviour anchors of the two disc-marker scanners (values checked
against CPython's `re`). -/
theorem disc_marker_anchors :
    pathDiscSearch "Input/Disc 2/f.mp3" = some "2" ∧
    pathDiscSearch "Input/cd12 x/f.mp3" = some "12" ∧
    pathDiscSearch "Input/f.mp3" = none ∧
    albumFirstDisc "X (Disc 2)" = some "2" ∧
    albumFirstDisc "X [disc 3]" = some "3" ∧
    albumFirstDisc "X (CD 2)" = none ∧
    pyStrip (albumStripAll "X (Disc 2)") = "X" ∧
    albumFirstDisc "XDisc 4" = some "4" := by
  decide

/-- Behaviour anchor of the whole pipeline: the happy path (exact
match, matching shape) writes tags and renames deterministically. -/
theorem happy_path_anchor :
    processAlbum catExactOne envX "X" discsOne []
      = ⟨[.tagWrite "Input/a.mp3" "Song One" "Artist A" (some "Best Of") "1" (some "2001"),
          .rename "Input/a.mp3" "Input/01 - Song One.mp3"], false, []⟩ := by
  decide
